import Mathlib

/-!
Verification of the Clip peer-to-peer membership service against its
specification.

The repository carries two parallel implementations of the same engine:
a flat layer (package `main`: `peer.go`, `handlers.go`, the flat
`service.go` and `discovery.go`) and a layered one (packages
`internal/peer`, `internal/handlers`, `internal/discovery`,
`internal/service`).  The registry (`PeerList`) and the `/heartbeat`
and `/gossip` handlers are textually identical in the two layers, so
they are embedded once; the `/join` and `/status` handlers and the
broadcast listener differ between the layers and are embedded twice
(the layered variants live in the `Handler` and `DiscoveryService`
namespaces, after the receiver types of the Go code).

Modelling conventions: Go `time.Time` instants become natural numbers,
with `t1.After(t2)` rendered as `t2 < t1`; the Go map
`map[string]*Peer` becomes a list of records keyed by their `id` field
(iteration order of a Go map is unspecified, and no property proved
here depends on the order); JSON decoding of a request body becomes an
`Option` of the decoded shape, `none` standing for a body the decoder
rejects; the wall clock is passed explicitly as a `now` argument to
every operation that reads it.
-/

namespace Clip

/-- Peer record, mirroring `type Peer struct` (fields `id`, `address`,
`last_seen`, `is_alive`) of `peer.go` / `internal/peer/peer.go`. -/
structure Peer where
  id : String
  address : String
  lastSeen : Nat
  isAlive : Bool
deriving Repr, DecidableEq

/-- The registry `PeerList.peers`: a map from id to peer record,
modelled as a list of records keyed by their `id` field. -/
abbrev PeerList := List Peer

/-- `PeerList.Get`: look the id up in the map (`peer, exists := pl.peers[id]`),
as an `Option`. -/
def Get (pl : PeerList) (id : String) : Option Peer :=
  pl.find? (fun p => p.id == id)

/-- The map store `pl.peers[s.ID] = s`: overwrite the record with
`s`'s id if one is present, otherwise insert `s`. -/
def store (pl : PeerList) (s : Peer) : PeerList :=
  if pl.any (fun q => q.id == s.id) then
    pl.map (fun q => if q.id == s.id then s else q)
  else
    pl ++ [s]

/-- `PeerList.Add`: stamps `peer.LastSeen = time.Now().UTC()` and
`peer.IsAlive = true`, then stores the record under its id
(`pl.peers[peer.ID] = peer`). -/
def Add (now : Nat) (pl : PeerList) (peer : Peer) : PeerList :=
  store pl { peer with lastSeen := now, isAlive := true }

/-- `PeerList.GetAll`: snapshot of all records. -/
def GetAll (pl : PeerList) : List Peer := pl

/-- `PeerList.GetAlive`: snapshot of the records with `IsAlive` true. -/
def GetAlive (pl : PeerList) : List Peer :=
  pl.filter (fun p => p.isAlive)

/-- `PeerList.MarkDead`: if the id is present, set that record's
`IsAlive` to false; nothing else is touched. -/
def MarkDead (pl : PeerList) (id : String) : PeerList :=
  pl.map (fun p => if p.id == id then { p with isAlive := false } else p)

/-- `PeerList.UpdateLastSeen`: if the id is present, set that record's
`LastSeen` to the current instant and `IsAlive` to true. -/
def UpdateLastSeen (now : Nat) (pl : PeerList) (id : String) : PeerList :=
  pl.map (fun p => if p.id == id then { p with lastSeen := now, isAlive := true } else p)

/-- The write-once service identity consumed by the handlers and loops:
`Service.ID`, `Service.AdvertiseAddr`, `Service.Port`. -/
structure Service where
  ID : String
  AdvertiseAddr : String
  Port : Nat
deriving Repr, DecidableEq

/-- `Service.GetFullAddress`: `fmt.Sprintf("http://%s:%d", s.AdvertiseAddr, s.Port)`. -/
def GetFullAddress (s : Service) : String :=
  "http://" ++ s.AdvertiseAddr ++ ":" ++ toString s.Port

/-- HTTP method of an inbound request (only the two the handlers inspect). -/
inductive Method
  | get
  | post
deriving Repr, DecidableEq

/-- A JSON object of string fields as decoded into Go's
`map[string]string`; indexing a missing key yields the zero value `""`. -/
def lookupStr (m : List (String × String)) (k : String) : String :=
  match m.find? (fun kv => kv.1 == k) with
  | some kv => kv.2
  | none => ""

/-- Flat-layer `(*Service) HandleJoin` of `handlers.go`: after the
method and decode guards it adds the joining peer, then adds a record
for the local node itself (`thisPeer` with `ID: s.ID`), and replies
with the full registry snapshot.  Result: (status, registry, reply body). -/
def HandleJoin (s : Service) (now : Nat) (pl : PeerList) (method : Method)
    (body : Option Peer) : Nat × PeerList × Option (List Peer) :=
  if method ≠ Method.post then (405, pl, none)
  else
    match body with
    | none => (400, pl, none)
    | some newPeer =>
      let pl1 := Add now pl newPeer
      let thisPeer : Peer := { id := s.ID, address := GetFullAddress s, lastSeen := 0, isAlive := false }
      let pl2 := Add now pl1 thisPeer
      (200, pl2, some (GetAll pl2))

/-- Layered `(*Handler) HandleJoin` of `internal/handlers/handlers.go`:
adds only the joining peer (the `onPeerJoin` callback merely logs) and
replies with the registry snapshot. -/
def Handler.HandleJoin (now : Nat) (pl : PeerList) (method : Method)
    (body : Option Peer) : Nat × PeerList × Option (List Peer) :=
  if method ≠ Method.post then (405, pl, none)
  else
    match body with
    | none => (400, pl, none)
    | some newPeer =>
      let pl1 := Add now pl newPeer
      (200, pl1, some (GetAll pl1))

/-- `HandleHeartbeat`, textually identical in `handlers.go` and
`internal/handlers/handlers.go`: decode the body into a string map,
read `heartbeat["id"]` and `heartbeat["address"]` (missing keys give
`""`), then `UpdateLastSeen` if the id is known and `Add` otherwise. -/
def HandleHeartbeat (now : Nat) (pl : PeerList) (method : Method)
    (body : Option (List (String × String))) : Nat × PeerList :=
  if method ≠ Method.post then (405, pl)
  else
    match body with
    | none => (400, pl)
    | some heartbeat =>
      let peerID := lookupStr heartbeat "id"
      let peerAddress := lookupStr heartbeat "address"
      if (Get pl peerID).isSome then
        (200, UpdateLastSeen now pl peerID)
      else
        (200, Add now pl { id := peerID, address := peerAddress, lastSeen := 0, isAlive := false })

/-- The body of the merge loop of `HandleGossip` for one payload
record: skip records carrying the local id; for a known id overwrite
only when the incoming `LastSeen` is strictly newer
(`peer.LastSeen.After(existing.LastSeen)`); for an unknown id add.
Both overwrite and insert go through `Add`, which re-stamps
`LastSeen = now`. -/
def gossipStep (serviceID : String) (now : Nat) (pl : PeerList) (peer : Peer) : PeerList :=
  if peer.id ≠ serviceID then
    match Get pl peer.id with
    | some existing =>
      if existing.lastSeen < peer.lastSeen then Add now pl peer else pl
    | none => Add now pl peer
  else pl

/-- `HandleGossip`, textually identical in `handlers.go` and
`internal/handlers/handlers.go`: decode a peer array and fold the
merge step over it. -/
def HandleGossip (serviceID : String) (now : Nat) (pl : PeerList) (method : Method)
    (body : Option (List Peer)) : Nat × PeerList :=
  if method ≠ Method.post then (405, pl)
  else
    match body with
    | none => (400, pl)
    | some peers => (200, peers.foldl (gossipStep serviceID now) pl)

/-- Shape of the `/status` response object (`id`, `address`,
`total_peers`, `alive_peers`, `peers`). -/
structure StatusResponse where
  id : String
  address : String
  total_peers : Nat
  alive_peers : Nat
  peers : List Peer
deriving Repr, DecidableEq

/-- Flat-layer `(*Service) HandleStatus` of `handlers.go`: fills
`address` with `s.GetFullAddress()`. -/
def HandleStatus (s : Service) (pl : PeerList) (method : Method) :
    Nat × Option StatusResponse :=
  if method ≠ Method.get then (405, none)
  else
    let alivePeers := GetAlive pl
    let allPeers := GetAll pl
    (200, some { id := s.ID, address := GetFullAddress s,
                 total_peers := allPeers.length, alive_peers := alivePeers.length,
                 peers := allPeers })

/-- Layered `(*Handler) HandleStatus` of `internal/handlers/handlers.go`:
fills `address` with the literal `""` (its comment reads "This will be
set by the service", but `SetupRoutes` wires this handler directly and
nothing ever sets it). -/
def Handler.HandleStatus (serviceID : String) (pl : PeerList) (method : Method) :
    Nat × Option StatusResponse :=
  if method ≠ Method.get then (405, none)
  else
    let alivePeers := GetAlive pl
    let allPeers := GetAll pl
    (200, some { id := serviceID, address := "",
                 total_peers := allPeers.length, alive_peers := alivePeers.length,
                 peers := allPeers })

/-- `checkPeerHealth`, identical in the flat `service.go` and
`internal/service/service.go`: snapshot `GetAll`, and for every record
whose age `now - LastSeen` exceeds the timeout and whose `IsAlive` is
still true, `MarkDead` it.  Nothing is ever removed. -/
def checkPeerHealth (peerTimeout : Nat) (now : Nat) (pl : PeerList) : PeerList :=
  (GetAll pl).foldl
    (fun acc peer =>
      if now - peer.lastSeen > peerTimeout then
        if peer.isAlive then MarkDead acc peer.id else acc
      else acc)
    pl

/-- `gossipWithPeers`, identical in the flat `service.go` and
`internal/service/service.go`: if the alive snapshot is empty, return
without sending; otherwise iterate over the alive snapshot POSTing the
`GetAll` snapshot, with an unconditional `break` at the end of the
first iteration.  The result is the list of (target address, payload)
POSTs the tick performs. -/
def gossipWithPeers (pl : PeerList) : List (String × List Peer) :=
  let peers := GetAlive pl
  if peers.length = 0 then []
  else
    let myPeers := GetAll pl
    match peers with
    | [] => []
    | p :: _ => [(p.address, myPeers)]

/-- UDP discovery datagram after JSON decode (`BroadcastMessage`:
`type`, `id`, `address`, `port`). -/
structure BroadcastMessage where
  messageType : String
  id : String
  address : String
  port : Nat
deriving Repr, DecidableEq

/-- `DiscoveryMessage`, the required value of the `type` field. -/
def DiscoveryMessage : String := "CLIP_PEER_DISCOVERY"

/-- Flat-layer `(*Service) handleBroadcast` of the flat `discovery.go`:
drop undecodable datagrams, datagrams carrying the local id, and
datagrams whose `type` mismatches; drop datagrams whose id is already
registered; otherwise add `{id, address}` and send a join request
(carrying the local node's record) to the announced address.  The
result is the new registry and the list of (target, self record) join
requests sent. -/
def handleBroadcast (s : Service) (now : Nat) (pl : PeerList)
    (data : Option BroadcastMessage) : PeerList × List (String × Peer) :=
  match data with
  | none => (pl, [])
  | some msg =>
    if msg.id = s.ID then (pl, [])
    else if msg.messageType ≠ DiscoveryMessage then (pl, [])
    else if (Get pl msg.id).isSome then (pl, [])
    else
      (Add now pl { id := msg.id, address := msg.address, lastSeen := 0, isAlive := false },
       [(msg.address, { id := s.ID, address := GetFullAddress s, lastSeen := 0, isAlive := false })])

/-- Layered `(*DiscoveryService) handleBroadcast` of
`internal/discovery/discovery.go`, composed with the `onPeerFound`
callback installed by `service.NewService` (which does
`peerList.Add(&peer.Peer{ID: id, Address: address})`): drop
undecodable, self, and wrongly-typed datagrams, then add
unconditionally — there is no presence check and no join request is
sent. -/
def DiscoveryService.handleBroadcast (serviceID : String) (now : Nat) (pl : PeerList)
    (data : Option BroadcastMessage) : PeerList :=
  match data with
  | none => pl
  | some msg =>
    if msg.id = serviceID then pl
    else if msg.messageType ≠ DiscoveryMessage then pl
    else Add now pl { id := msg.id, address := msg.address, lastSeen := 0, isAlive := false }

/-! ### Registry lemmas -/

theorem Get_cons_self {q : Peer} {t : PeerList} {i : String} (hq : q.id = i) :
    Get (q :: t) i = some q := by
  simp only [Get]
  rw [List.find?_cons_of_pos _ (by simp [hq])]

theorem Get_cons_ne {q : Peer} {t : PeerList} {i : String} (hq : q.id ≠ i) :
    Get (q :: t) i = Get t i := by
  simp only [Get]
  rw [List.find?_cons_of_neg _ (by simp [hq])]

theorem Get_isSome_of_mem {pl : PeerList} {p : Peer} (h : p ∈ pl) :
    (Get pl p.id).isSome = true := by
  induction pl with
  | nil => cases h
  | cons r t ih =>
    by_cases hr : r.id = p.id
    · rw [Get_cons_self hr]
      rfl
    · rcases List.mem_cons.mp h with h | h
      · exact absurd (congrArg Peer.id h.symm) hr
      · rw [Get_cons_ne hr]
        exact ih h

theorem any_cons_tail {q : Peer} {t : PeerList} {i : String}
    (h : (q :: t).any (fun r => r.id == i) = true) (hq : q.id ≠ i) :
    t.any (fun r => r.id == i) = true := by
  simpa [List.any_cons, hq] using h

theorem Get_store_self (pl : PeerList) (s : Peer) :
    Get (store pl s) s.id = some s := by
  unfold store
  by_cases h : pl.any (fun q => q.id == s.id)
  · rw [if_pos h]
    induction pl with
    | nil => simp at h
    | cons q t ih =>
      rw [List.map_cons]
      by_cases hq : q.id = s.id
      · rw [if_pos (by simp [hq])]
        exact Get_cons_self rfl
      · rw [if_neg (by simp [hq])]
        rw [Get_cons_ne hq]
        exact ih (any_cons_tail h hq)
  · rw [if_neg h]
    have h0 : ∀ q ∈ pl, q.id ≠ s.id := by
      intro q hq heq
      exact h (List.any_eq_true.mpr ⟨q, hq, by simp [heq]⟩)
    induction pl with
    | nil => exact Get_cons_self rfl
    | cons q t ih =>
      rw [List.cons_append, Get_cons_ne (h0 q (List.mem_cons_self q t))]
      exact ih (by simp [List.any_cons] at h; simp [List.any_eq_true]; exact h.2)
        (fun r hr => h0 r (List.mem_cons_of_mem q hr))

theorem Get_store_ne (pl : PeerList) (s : Peer) (i : String) (hne : s.id ≠ i) :
    Get (store pl s) i = Get pl i := by
  unfold store
  by_cases h : pl.any (fun q => q.id == s.id)
  · rw [if_pos h]
    induction pl with
    | nil => rfl
    | cons q t ih =>
      rw [List.map_cons]
      by_cases hq : q.id = s.id
      · rw [if_pos (by simp [hq])]
        rw [Get_cons_ne hne, Get_cons_ne (hq.symm ▸ hne)]
        by_cases h1 : t.any (fun r => r.id == s.id)
        · exact ih h1
        · -- without any further `s.id` entry the map is the identity
          have hid : t.map (fun r => if r.id == s.id then s else r) = t.map id := by
            apply List.map_congr_left
            intro r hr
            have : r.id ≠ s.id := by
              intro hc
              exact h1 (List.any_eq_true.mpr ⟨r, hr, by simp [hc]⟩)
            simp [this]
          rw [hid, List.map_id]
      · rw [if_neg (by simp [hq])]
        by_cases hqi : q.id = i
        · rw [Get_cons_self hqi, Get_cons_self hqi]
        · rw [Get_cons_ne hqi, Get_cons_ne hqi]
          by_cases h1 : t.any (fun r => r.id == s.id)
          · exact ih h1
          · have hid : t.map (fun r => if r.id == s.id then s else r) = t.map id := by
              apply List.map_congr_left
              intro r hr
              have : r.id ≠ s.id := by
                intro hc
                exact h1 (List.any_eq_true.mpr ⟨r, hr, by simp [hc]⟩)
              simp [this]
            rw [hid, List.map_id]
  · rw [if_neg h]
    induction pl with
    | nil => exact Get_cons_ne hne
    | cons q t ih =>
      rw [List.cons_append]
      by_cases hqi : q.id = i
      · rw [Get_cons_self hqi, Get_cons_self hqi]
      · rw [Get_cons_ne hqi, Get_cons_ne hqi]
        exact ih (by
          intro hc
          exact h (by simp [List.any_cons]; right; simpa [List.any_eq_true] using
            List.any_eq_true.mp hc))

theorem Get_Add_self (now : Nat) (pl : PeerList) (r : Peer) :
    Get (Add now pl r) r.id = some { r with lastSeen := now, isAlive := true } := by
  unfold Add
  exact Get_store_self pl { r with lastSeen := now, isAlive := true }

theorem Get_Add_ne (now : Nat) (pl : PeerList) (r : Peer) (i : String)
    (hne : r.id ≠ i) :
    Get (Add now pl r) i = Get pl i := by
  unfold Add
  exact Get_store_ne pl { r with lastSeen := now, isAlive := true } i hne

theorem MarkDead_cons (q : Peer) (t : PeerList) (i : String) :
    MarkDead (q :: t) i = (if q.id == i then { q with isAlive := false } else q) :: MarkDead t i := by
  rfl

theorem MarkDead_of_absent {pl : PeerList} {i : String} (h : Get pl i = none) :
    MarkDead pl i = pl := by
  induction pl with
  | nil => rfl
  | cons q t ih =>
    by_cases hq : q.id = i
    · rw [Get_cons_self hq] at h
      cases h
    · rw [Get_cons_ne hq] at h
      rw [MarkDead_cons, if_neg (by simp [hq]), ih h]

theorem Get_MarkDead_self {pl : PeerList} {i : String} {p : Peer}
    (h : Get pl i = some p) :
    Get (MarkDead pl i) i = some { p with isAlive := false } := by
  induction pl with
  | nil => cases h
  | cons q t ih =>
    by_cases hq : q.id = i
    · rw [Get_cons_self hq] at h
      cases h
      rw [MarkDead_cons, if_pos (by simp [hq])]
      exact Get_cons_self hq
    · rw [Get_cons_ne hq] at h
      rw [MarkDead_cons, if_neg (by simp [hq]), Get_cons_ne hq]
      exact ih h

theorem Get_MarkDead_ne {pl : PeerList} {i j : String} (hne : j ≠ i) :
    Get (MarkDead pl i) j = Get pl j := by
  induction pl with
  | nil => rfl
  | cons q t ih =>
    rw [MarkDead_cons]
    by_cases hq : q.id = i
    · have h1 : q.id ≠ j := fun hc => hne ((hc ▸ hq : j = i))
      rw [if_pos (by simp [hq]),
        Get_cons_ne (show ({ q with isAlive := false } : Peer).id ≠ j from h1),
        Get_cons_ne h1]
      exact ih
    · rw [if_neg (by simp [hq])]
      by_cases hqj : q.id = j
      · rw [Get_cons_self hqj, Get_cons_self hqj]
      · rw [Get_cons_ne hqj, Get_cons_ne hqj]
        exact ih

theorem MarkDead_idem (pl : PeerList) (i : String) :
    MarkDead (MarkDead pl i) i = MarkDead pl i := by
  unfold MarkDead
  rw [List.map_map]
  apply List.map_congr_left
  intro p _
  by_cases hp : p.id = i <;> simp [Function.comp, hp]

/-! ### Gossip merge lemmas -/

theorem gossipStep_of_stale {pl : PeerList} {p q : Peer} (serviceID : String) (now : Nat)
    (hget : Get pl p.id = some q) (hle : p.lastSeen ≤ q.lastSeen) :
    gossipStep serviceID now pl p = pl := by
  unfold gossipStep
  by_cases hs : p.id = serviceID
  · rw [if_neg (not_not_intro hs)]
  · rw [if_pos hs]
    simp only [hget]
    rw [if_neg (by omega)]

theorem Get_gossipStep_ne (serviceID : String) (now : Nat) (pl : PeerList)
    (r : Peer) (i : String) (hne : r.id ≠ i) :
    Get (gossipStep serviceID now pl r) i = Get pl i := by
  unfold gossipStep
  by_cases hs : r.id = serviceID
  · rw [if_neg (not_not_intro hs)]
  · rw [if_pos hs]
    cases hget : Get pl r.id with
    | some existing =>
      simp only [hget]
      by_cases hlt : existing.lastSeen < r.lastSeen
      · rw [if_pos hlt]
        exact Get_Add_ne now pl r i hne
      · rw [if_neg hlt]
    | none =>
      simp only [hget]
      exact Get_Add_ne now pl r i hne

theorem Get_gossipStep_self_none (serviceID : String) (now : Nat) (pl : PeerList)
    (r : Peer) (h : Get pl serviceID = none) :
    Get (gossipStep serviceID now pl r) serviceID = none := by
  by_cases hs : r.id = serviceID
  · unfold gossipStep
    rw [if_neg (not_not_intro hs)]
    exact h
  · rw [Get_gossipStep_ne serviceID now pl r serviceID hs]
    exact h

theorem gossipFold_self_none (serviceID : String) (now : Nat) (ps : List Peer) :
    ∀ pl : PeerList, Get pl serviceID = none →
      Get (ps.foldl (gossipStep serviceID now) pl) serviceID = none := by
  induction ps with
  | nil => intro pl h; exact h
  | cons r ps ih =>
    intro pl h
    rw [List.foldl_cons]
    exact ih _ (Get_gossipStep_self_none serviceID now pl r h)

theorem gossipFold_untouched (serviceID : String) (now : Nat) (ps : List Peer) :
    ∀ (pl : PeerList) (i : String), (∀ r ∈ ps, r.id ≠ i) →
      Get (ps.foldl (gossipStep serviceID now) pl) i = Get pl i := by
  induction ps with
  | nil => intro pl i _; rfl
  | cons r ps ih =>
    intro pl i h
    rw [List.foldl_cons,
      ih _ i (fun x hx => h x (List.mem_cons_of_mem r hx)),
      Get_gossipStep_ne serviceID now pl r i (h r (List.mem_cons_self r ps))]

theorem gossipFold_stale_preserved (serviceID : String) (now : Nat) (ps : List Peer) :
    ∀ (pl : PeerList) (p q : Peer), p ∈ ps → (ps.map Peer.id).Nodup →
      Get pl p.id = some q → p.lastSeen ≤ q.lastSeen →
      Get (ps.foldl (gossipStep serviceID now) pl) p.id = some q := by
  induction ps with
  | nil => intro pl p q hmem _ _ _; cases hmem
  | cons r ps ih =>
    intro pl p q hmem hnd hget hle
    have hnd' : (∀ x ∈ ps, ¬ x.id = r.id) ∧ (ps.map Peer.id).Nodup := by
      simpa [List.map_cons] using hnd
    rw [List.foldl_cons]
    rcases List.mem_cons.mp hmem with rfl | hmem'
    · rw [gossipStep_of_stale serviceID now hget hle]
      rw [gossipFold_untouched serviceID now ps pl p.id hnd'.1]
      exact hget
    · have hrp : r.id ≠ p.id := fun hc => hnd'.1 p hmem' hc.symm
      have hget' : Get (gossipStep serviceID now pl r) p.id = some q := by
        rw [Get_gossipStep_ne serviceID now pl r p.id hrp]
        exact hget
      exact ih _ p q hmem' hnd'.2 hget' hle

/-! ### Health tick lemmas -/

theorem foldl_markDead (cond : Peer → Bool) (l : List Peer) :
    ∀ acc : PeerList,
      l.foldl (fun acc p => if cond p then MarkDead acc p.id else acc) acc
        = acc.map (fun q =>
            if l.any (fun p => cond p && p.id == q.id) then { q with isAlive := false } else q) := by
  induction l with
  | nil =>
    intro acc
    simp
  | cons p l ih =>
    intro acc
    rw [List.foldl_cons]
    by_cases hc : cond p
    · rw [if_pos hc, ih]
      unfold MarkDead
      rw [List.map_map]
      apply List.map_congr_left
      intro q _
      by_cases h1 : q.id = p.id
      · simp only [Function.comp, if_pos (show (q.id == p.id) = true by simp [h1]),
          List.any_cons, hc, Bool.true_and]
        have hid : ({ q with isAlive := false } : Peer).id = q.id := rfl
        rw [hid]
        have hpq : (p.id == q.id) = true := by simp [h1.symm]
        rw [hpq, Bool.true_or, if_pos rfl]
        by_cases h2 : l.any (fun r => cond r && r.id == q.id)
        · rw [if_pos h2]
        · rw [if_neg h2]
      · simp only [Function.comp, if_neg (show ¬ (q.id == p.id) = true by simp [h1]),
          List.any_cons, hc, Bool.true_and]
        have hpq : (p.id == q.id) = false := by simp; exact fun hc2 => h1 hc2.symm
        rw [hpq, Bool.false_or]
    · rw [if_neg hc, ih]
      apply List.map_congr_left
      intro q _
      have hh : (cond p && (p.id == q.id)) = false := by simp [hc]
      rw [List.any_cons, hh, Bool.false_or]

theorem checkPeerHealth_eq_map (T now : Nat) (pl : PeerList) :
    checkPeerHealth T now pl
      = pl.map (fun q =>
          if pl.any (fun p => (decide (now - p.lastSeen > T) && p.isAlive) && p.id == q.id)
          then { q with isAlive := false } else q) := by
  have hstep : (fun (acc : PeerList) (peer : Peer) =>
      if now - peer.lastSeen > T then
        if peer.isAlive then MarkDead acc peer.id else acc
      else acc)
      = (fun (acc : PeerList) (p : Peer) =>
          if (decide (now - p.lastSeen > T) && p.isAlive) then MarkDead acc p.id else acc) := by
    funext acc p
    by_cases h1 : now - p.lastSeen > T <;> by_cases h2 : p.isAlive <;> simp [h1, h2]
  unfold checkPeerHealth GetAll
  rw [hstep]
  exact foldl_markDead _ pl pl

theorem id_unique_of_nodup {pl : PeerList} (h : (pl.map Peer.id).Nodup)
    {p q : Peer} (hp : p ∈ pl) (hq : q ∈ pl) (hid : p.id = q.id) : p = q := by
  induction pl with
  | nil => cases hp
  | cons r t ih =>
    have h' : (∀ x ∈ t, ¬ x.id = r.id) ∧ (t.map Peer.id).Nodup := by
      simpa [List.map_cons] using h
    rcases List.mem_cons.mp hp with rfl | hp' <;> rcases List.mem_cons.mp hq with rfl | hq'
    · rfl
    · exact absurd hid.symm (h'.1 q hq')
    · exact absurd hid (h'.1 p hp')
    · exact ih h'.2 hp' hq'

theorem any_cond_of_nodup {pl : PeerList} (hnd : (pl.map Peer.id).Nodup)
    {q : Peer} (hq : q ∈ pl) (cond : Peer → Bool) :
    pl.any (fun p => cond p && p.id == q.id) = cond q := by
  cases hcq : cond q with
  | false =>
    rw [List.any_eq_false]
    intro p hp hc
    have hc' : cond p = true ∧ p.id = q.id := by simpa using hc
    have hpq : p = q := id_unique_of_nodup hnd hp hq hc'.2
    rw [hpq, hcq] at hc'
    cases hc'.1
  | true =>
    exact List.any_eq_true.mpr ⟨q, hq, by simp [hcq]⟩

/-! ### Claim C5 -/

/-- C5 (confirmed): `MarkDead` on a present id sets that record's
`is_alive` to false while leaving its id, address and `last_seen`
exactly as before (and touching no other record); the call is
idempotent; and on an absent id the registry is unchanged. -/
theorem MarkDead_spec (pl : PeerList) (i : String) :
    (∀ p, Get pl i = some p →
        Get (MarkDead pl i) i = some { p with isAlive := false }
          ∧ (∀ j, j ≠ i → Get (MarkDead pl i) j = Get pl j))
      ∧ MarkDead (MarkDead pl i) i = MarkDead pl i
      ∧ (Get pl i = none → MarkDead pl i = pl) :=
  ⟨fun _ hp => ⟨Get_MarkDead_self hp, fun _ hj => Get_MarkDead_ne hj⟩,
   MarkDead_idem pl i,
   fun h => MarkDead_of_absent h⟩

/-- Witness for C5 at a concrete registry. -/
theorem MarkDead_spec_witness :
    Get (MarkDead [{ id := "B", address := "b", lastSeen := 5, isAlive := true }] "B") "B"
      = some { id := "B", address := "b", lastSeen := 5, isAlive := false } :=
  ((MarkDead_spec [{ id := "B", address := "b", lastSeen := 5, isAlive := true }] "B").1
    { id := "B", address := "b", lastSeen := 5, isAlive := true } (by decide)).1

/-! ### Claim C4 -/

/-- C4 (confirmed): on a health tick, every record of the snapshot
whose age exceeds `peer_timeout` and which is still alive is marked
dead but kept in the registry (`Get` still finds its id); every record
within the timeout or already dead is left unchanged; and the tick
never deletes a record (the id sequence of the registry is unchanged). -/
theorem checkPeerHealth_spec (T now : Nat) (pl : PeerList)
    (hnd : (pl.map Peer.id).Nodup) (q : Peer) (hq : q ∈ pl) :
    ((now - q.lastSeen > T ∧ q.isAlive = true) →
        { q with isAlive := false } ∈ checkPeerHealth T now pl
          ∧ (Get (checkPeerHealth T now pl) q.id).isSome = true)
      ∧ (¬ (now - q.lastSeen > T ∧ q.isAlive = true) → q ∈ checkPeerHealth T now pl)
      ∧ (checkPeerHealth T now pl).map Peer.id = pl.map Peer.id := by
  have hany := any_cond_of_nodup hnd hq (fun p => decide (now - p.lastSeen > T) && p.isAlive)
  refine ⟨?_, ?_, ?_⟩
  · intro hcase
    have hc : (decide (now - q.lastSeen > T) && q.isAlive) = true := by
      simp [hcase.1, hcase.2]
    have hmem2 : { q with isAlive := false } ∈ checkPeerHealth T now pl := by
      rw [checkPeerHealth_eq_map]
      refine List.mem_map.mpr ⟨q, hq, ?_⟩
      show (if pl.any (fun p => (decide (now - p.lastSeen > T) && p.isAlive) && p.id == q.id)
          then { q with isAlive := false } else q) = { q with isAlive := false }
      rw [hany]
      exact if_pos hc
    exact ⟨hmem2, Get_isSome_of_mem (p := { q with isAlive := false }) hmem2⟩
  · intro hcase
    have hc : (decide (now - q.lastSeen > T) && q.isAlive) = false := by
      by_cases h1 : now - q.lastSeen > T
      · by_cases h2 : q.isAlive
        · exact absurd ⟨h1, h2⟩ hcase
        · simp [h2]
      · simp [h1]
    rw [checkPeerHealth_eq_map]
    refine List.mem_map.mpr ⟨q, hq, ?_⟩
    show (if pl.any (fun p => (decide (now - p.lastSeen > T) && p.isAlive) && p.id == q.id)
        then { q with isAlive := false } else q) = q
    rw [hany]
    exact if_neg (by simp [hc])
  · rw [checkPeerHealth_eq_map, List.map_map]
    apply List.map_congr_left
    intro p _
    by_cases hcp : pl.any (fun r => (decide (now - r.lastSeen > T) && r.isAlive) && r.id == p.id)
      <;> simp [Function.comp, hcp]

/-- Witness for C4: an expired alive record is tombstoned in place. -/
theorem checkPeerHealth_spec_witness :
    ({ id := "B", address := "b", lastSeen := 0, isAlive := false } : Peer)
      ∈ checkPeerHealth 3 10 [{ id := "B", address := "b", lastSeen := 0, isAlive := true }] :=
  ((checkPeerHealth_spec 3 10 [{ id := "B", address := "b", lastSeen := 0, isAlive := true }]
      (by decide) { id := "B", address := "b", lastSeen := 0, isAlive := true } (by decide)).1
    (by decide)).1

/-! ### Claim C3 -/

/-- C3 (confirmed): merge monotonicity.  For a `/gossip` payload
record `p` whose id is registered with local record `q` and whose
incoming `last_seen` satisfies `R ≤ L`, the merge step leaves the
registry unchanged, and after handling a whole payload (whose records
carry pairwise distinct ids, as every snapshot of a registry does) the
local record for `p.id` is exactly the pre-call record `q` —
unmodified id, address, `last_seen` and `is_alive`. -/
theorem gossip_merge_monotone (serviceID : String) (now : Nat) (pl : PeerList)
    (ps : List Peer) (p q : Peer) (hmem : p ∈ ps) (hnd : (ps.map Peer.id).Nodup)
    (hget : Get pl p.id = some q) (hle : p.lastSeen ≤ q.lastSeen) :
    (HandleGossip serviceID now pl Method.post (some ps)).1 = 200
      ∧ Get (HandleGossip serviceID now pl Method.post (some ps)).2 p.id = some q
      ∧ gossipStep serviceID now pl p = pl := by
  refine ⟨rfl, ?_, gossipStep_of_stale serviceID now hget hle⟩
  show Get (ps.foldl (gossipStep serviceID now) pl) p.id = some q
  exact gossipFold_stale_preserved serviceID now ps pl p q hmem hnd hget hle

/-- Witness for C3: a stale incoming record (7 ≤ 10) leaves the local
record untouched. -/
theorem gossip_merge_monotone_witness :
    Get (HandleGossip "A" 50 [{ id := "B", address := "b", lastSeen := 10, isAlive := true }]
        Method.post (some [{ id := "B", address := "nb", lastSeen := 7, isAlive := true }])).2 "B"
      = some { id := "B", address := "b", lastSeen := 10, isAlive := true } :=
  (gossip_merge_monotone "A" 50 [{ id := "B", address := "b", lastSeen := 10, isAlive := true }]
    [{ id := "B", address := "nb", lastSeen := 7, isAlive := true }]
    { id := "B", address := "nb", lastSeen := 7, isAlive := true }
    { id := "B", address := "b", lastSeen := 10, isAlive := true }
    (by decide) (by decide) (by decide) (by decide)).2.1

/-! ### Claim C1 -/

/-- C1 counterexample: handling a single well-formed `/join` from a
fresh registry already creates a record keyed by the local node's own
id — the flat-layer join handler adds `thisPeer` (with `ID: s.ID`) to
its own registry so that the reply includes the local node. -/
theorem join_adds_self_record_cex :
    (Get (HandleJoin { ID := "A", AdvertiseAddr := "h", Port := 1 } 7 []
        Method.post (some { id := "B", address := "b", lastSeen := 0, isAlive := false })).2.1
      "A").isSome = true := by
  decide

/-- C1 (corrected, amended part proved): the gossip path does enforce
self-exclusion — a registry with no record keyed by `serviceID` still
has none after handling any `/gossip` request, because the merge skips
payload records carrying the local id. -/
theorem gossip_preserves_self_exclusion (serviceID : String) (now : Nat)
    (pl : PeerList) (method : Method) (body : Option (List Peer))
    (h : Get pl serviceID = none) :
    Get (HandleGossip serviceID now pl method body).2 serviceID = none := by
  unfold HandleGossip
  by_cases hm : method = Method.post
  · subst hm
    rw [if_neg (not_not_intro rfl)]
    cases body with
    | none => exact h
    | some ps => exact gossipFold_self_none serviceID now ps pl h
  · rw [if_pos hm]
    exact h

/-- Witness for C1's amended theorem: gossiping the receiver's own id
into an empty registry adds nothing. -/
theorem gossip_preserves_self_exclusion_witness :
    Get (HandleGossip "A" 5 [] Method.post
        (some [{ id := "A", address := "x", lastSeen := 9, isAlive := true }])).2 "A" = none :=
  gossip_preserves_self_exclusion "A" 5 [] Method.post
    (some [{ id := "A", address := "x", lastSeen := 9, isAlive := true }]) rfl

/-! ### Claim C2 -/

/-- C2 (code_bug): the gossip merge inserts an absent record through
`Add`, which re-stamps `last_seen` with the receiver's clock (999)
instead of keeping the sender-provided value (100), contradicting the
spec's "do NOT overwrite with now() for merges". -/
theorem gossip_merge_restamps_lastSeen :
    (HandleGossip "A" 999 [] Method.post
        (some [{ id := "B", address := "b", lastSeen := 100, isAlive := true }])).2
      = [{ id := "B", address := "b", lastSeen := 999, isAlive := true }]
      ∧ Get (HandleGossip "A" 999 [] Method.post
          (some [{ id := "B", address := "b", lastSeen := 100, isAlive := true }])).2 "B"
        ≠ some { id := "B", address := "b", lastSeen := 100, isAlive := true } := by
  decide

/-! ### Claim C6 -/

/-- C6 (confirmed): a gossip tick with an empty alive snapshot sends
nothing; with a non-empty alive snapshot it POSTs the full `GetAll`
snapshot to exactly the first alive peer and to no other peer. -/
theorem gossipWithPeers_spec (pl : PeerList) :
    (GetAlive pl = [] → gossipWithPeers pl = [])
      ∧ (∀ p rest, GetAlive pl = p :: rest →
          gossipWithPeers pl = [(p.address, GetAll pl)]) := by
  constructor
  · intro h
    simp [gossipWithPeers, h]
  · intro p rest h
    simp [gossipWithPeers, h]

/-- Witness for C6: one alive peer receives the whole snapshot. -/
theorem gossipWithPeers_spec_witness :
    gossipWithPeers [{ id := "B", address := "b", lastSeen := 1, isAlive := true }]
      = [("b", [{ id := "B", address := "b", lastSeen := 1, isAlive := true }])] :=
  (gossipWithPeers_spec [{ id := "B", address := "b", lastSeen := 1, isAlive := true }]).2
    { id := "B", address := "b", lastSeen := 1, isAlive := true } [] (by decide)

/-! ### Claim C7 -/

/-- C7 (confirmed): for `/join` (both layers), `/heartbeat` and
`/gossip`, a request with the wrong method is answered 405 and a POST
whose body fails to decode is answered 400, and in both cases the
registry is returned unchanged — the guards run before any mutation. -/
theorem protocol_error_atomicity (s : Service) (serviceID : String) (now : Nat)
    (pl : PeerList) (method : Method) (bodyJ : Option Peer)
    (bodyH : Option (List (String × String))) (bodyG : Option (List Peer)) :
    (method ≠ Method.post →
        HandleJoin s now pl method bodyJ = (405, pl, none)
          ∧ Handler.HandleJoin now pl method bodyJ = (405, pl, none)
          ∧ HandleHeartbeat now pl method bodyH = (405, pl)
          ∧ HandleGossip serviceID now pl method bodyG = (405, pl))
      ∧ (HandleJoin s now pl Method.post none = (400, pl, none)
          ∧ Handler.HandleJoin now pl Method.post none = (400, pl, none)
          ∧ HandleHeartbeat now pl Method.post none = (400, pl)
          ∧ HandleGossip serviceID now pl Method.post none = (400, pl)) := by
  constructor
  · intro hm
    refine ⟨?_, ?_, ?_, ?_⟩ <;>
      simp [HandleJoin, Handler.HandleJoin, HandleHeartbeat, HandleGossip, hm]
  · exact ⟨rfl, rfl, rfl, rfl⟩

/-- Witness for C7: a GET to `/heartbeat` is answered 405 with the
registry unchanged. -/
theorem protocol_error_atomicity_witness :
    HandleHeartbeat 0 [] Method.get (some []) = (405, []) :=
  ((protocol_error_atomicity { ID := "A", AdvertiseAddr := "h", Port := 1 } "A" 0 []
      Method.get none (some []) none).1 (by decide)).2.2.1

/-! ### Claim C8 -/

/-- C8 (code_bug): the layered `/status` handler answers with
`address = ""` while the flat-layer handler answers with the full
advertised URL; the spec requires the full URL and flags the
empty-string path as a bug. -/
theorem status_address_divergence :
    (Handler.HandleStatus "A" [{ id := "B", address := "b", lastSeen := 3, isAlive := true }]
        Method.get).2
      = some { id := "A", address := "", total_peers := 1, alive_peers := 1,
               peers := [{ id := "B", address := "b", lastSeen := 3, isAlive := true }] }
      ∧ (HandleStatus { ID := "A", AdvertiseAddr := "h", Port := 8080 }
          [{ id := "B", address := "b", lastSeen := 3, isAlive := true }] Method.get).2
        = some { id := "A", address := "http://h:8080", total_peers := 1, alive_peers := 1,
                 peers := [{ id := "B", address := "b", lastSeen := 3, isAlive := true }] }
      ∧ GetFullAddress { ID := "A", AdvertiseAddr := "h", Port := 8080 } = "http://h:8080"
      ∧ ("" : String) ≠ "http://h:8080" := by
  decide

/-! ### Claim C9 -/

/-- C9 counterexample: the layered broadcast listener, on a datagram
whose id is already registered, does NOT leave the registry unchanged —
it overwrites the record (new address, `last_seen = now`,
`is_alive = true`), because it has no presence check. -/
theorem broadcast_overwrite_cex :
    DiscoveryService.handleBroadcast "A" 9
        [{ id := "B", address := "old", lastSeen := 5, isAlive := false }]
        (some { messageType := "CLIP_PEER_DISCOVERY", id := "B", address := "new", port := 2 })
      = [{ id := "B", address := "new", lastSeen := 9, isAlive := true }]
      ∧ [({ id := "B", address := "new", lastSeen := 9, isAlive := true } : Peer)]
        ≠ [{ id := "B", address := "old", lastSeen := 5, isAlive := false }] := by
  decide

/-- C9 (corrected, amended part proved): the flat-layer listener
behaves exactly as the claim states — self or wrongly-typed datagrams
leave the registry unchanged and send nothing, a datagram with a
registered id leaves the registry unchanged and sends nothing, and a
datagram with a fresh id adds `{id, address}` and sends exactly one
join request to the announced address; the layered listener instead
adds unconditionally (no presence check) and never sends a join. -/
theorem handleBroadcast_spec (s : Service) (now : Nat) (pl : PeerList)
    (msg : BroadcastMessage) :
    ((msg.id = s.ID ∨ msg.messageType ≠ DiscoveryMessage) →
        handleBroadcast s now pl (some msg) = (pl, []))
      ∧ (msg.id ≠ s.ID → msg.messageType = DiscoveryMessage →
          (Get pl msg.id).isSome = true →
          handleBroadcast s now pl (some msg) = (pl, []))
      ∧ (msg.id ≠ s.ID → msg.messageType = DiscoveryMessage →
          Get pl msg.id = none →
          handleBroadcast s now pl (some msg)
            = (Add now pl { id := msg.id, address := msg.address, lastSeen := 0, isAlive := false },
               [(msg.address,
                 { id := s.ID, address := GetFullAddress s, lastSeen := 0, isAlive := false })]))
      ∧ (msg.id ≠ s.ID → msg.messageType = DiscoveryMessage →
          DiscoveryService.handleBroadcast s.ID now pl (some msg)
            = Add now pl { id := msg.id, address := msg.address, lastSeen := 0, isAlive := false }) := by
  refine ⟨?_, ?_, ?_, ?_⟩
  · rintro (h | h)
    · simp [handleBroadcast, h]
    · by_cases hid : msg.id = s.ID
      · simp [handleBroadcast, hid]
      · simp [handleBroadcast, hid, h]
  · intro h1 h2 h3
    simp [handleBroadcast, h1, h2, h3]
  · intro h1 h2 h3
    simp [handleBroadcast, h1, h2, h3]
  · intro h1 h2
    simp [DiscoveryService.handleBroadcast, h1, h2]

/-- Witness for C9's amended theorem: a fresh id is added and exactly
one join request is sent to it. -/
theorem handleBroadcast_spec_witness :
    handleBroadcast { ID := "A", AdvertiseAddr := "h", Port := 1 } 4 []
        (some { messageType := "CLIP_PEER_DISCOVERY", id := "B", address := "b", port := 2 })
      = (Add 4 [] { id := "B", address := "b", lastSeen := 0, isAlive := false },
         [("b", { id := "A",
                  address := GetFullAddress { ID := "A", AdvertiseAddr := "h", Port := 1 },
                  lastSeen := 0, isAlive := false })]) :=
  (handleBroadcast_spec { ID := "A", AdvertiseAddr := "h", Port := 1 } 4 []
      { messageType := "CLIP_PEER_DISCOVERY", id := "B", address := "b", port := 2 }).2.2.1
    (by decide) rfl rfl

/-! ### Claim C10 -/

/-- C10 counterexample: a valid string-map body without an `id` member
but with an `address` member is accepted (200) and inserts a record
whose id is `""` but whose address is the payload's address — not the
empty string the claim asserts. -/
theorem heartbeat_empty_id_address_cex :
    (HandleHeartbeat 5 [] Method.post (some [("address", "x")])).2
      = [{ id := "", address := "x", lastSeen := 5, isAlive := true }]
      ∧ (HandleHeartbeat 5 [] Method.post (some [("address", "x")])).1 = 200
      ∧ ("x" : String) ≠ "" := by
  decide

/-- C10 (corrected, amended part proved): a POST `/heartbeat` whose
body is a valid string map without an `id` member is answered 200 and,
when no empty-id record exists, inserts a record with id `""`, the
payload's `address` value (`""` when also absent, as for `{}`),
`is_alive = true` and `last_seen = now` — no validation rejects the
empty id. -/
theorem heartbeat_missing_id_spec (now : Nat) (pl : PeerList)
    (m : List (String × String))
    (hid : m.find? (fun kv => kv.1 == "id") = none)
    (habs : Get pl "" = none) :
    HandleHeartbeat now pl Method.post (some m)
        = (200, Add now pl { id := "", address := lookupStr m "address",
                             lastSeen := 0, isAlive := false })
      ∧ Get (HandleHeartbeat now pl Method.post (some m)).2 ""
        = some { id := "", address := lookupStr m "address",
                 lastSeen := now, isAlive := true } := by
  have hID : lookupStr m "id" = "" := by simp [lookupStr, hid]
  have hreduce : HandleHeartbeat now pl Method.post (some m)
      = if (Get pl (lookupStr m "id")).isSome
        then (200, UpdateLastSeen now pl (lookupStr m "id"))
        else (200, Add now pl { id := lookupStr m "id", address := lookupStr m "address",
                                lastSeen := 0, isAlive := false }) := rfl
  have h1 : HandleHeartbeat now pl Method.post (some m)
      = (200, Add now pl { id := "", address := lookupStr m "address",
                           lastSeen := 0, isAlive := false }) := by
    rw [hreduce, hID, habs]
    rfl
  refine ⟨h1, ?_⟩
  rw [h1]
  exact Get_Add_self now pl
    { id := "", address := lookupStr m "address", lastSeen := 0, isAlive := false }

/-- Witness for C10's amended theorem at the body `{}`. -/
theorem heartbeat_missing_id_spec_witness :
    Get (HandleHeartbeat 5 [] Method.post (some [])).2 ""
      = some { id := "", address := "", lastSeen := 5, isAlive := true } :=
  (heartbeat_missing_id_spec 5 [] [] rfl rfl).2

end Clip
